import Mathlib

/-!
Verification of the compiler registry resolution engine
(`lib/spack/spack/compilers/__init__.py`).

The Python module is shallowly embedded below.  YAML mapping values are
modelled with `Option` (where a key may be absent, the outer `Option`
models key presence; the inner value models a possibly-null value).
Mutable module-level state (the identity cache `_compiler_cache`, emitted
warnings, debug log) is threaded explicitly as a `CState` value.  Object
identity of Python dicts is modelled by a numeric `refId` carried next to
the dict's contents, and object identity of constructed compiler objects
by a monotonically allocated `objId`.  Exceptions are modelled with
`Except`.  External collaborators that the source module merely calls
(spec parsing and `satisfies`, the archspec target table, the per-family
compiler classes) are taken as parameters or modelled from the spec, as
noted on each definition.
-/

namespace SpackCompilers

/-- A Python value for one of the four keys under `paths`: `none` models a
YAML null, `some s` a path string. -/
abbrev PVal := Option String

/-- The `paths` sub-mapping of a raw config entry.  Each field's outer
`Option` models presence of the key itself (`none` = key absent). -/
structure Paths where
  cc : Option PVal
  cxx : Option PVal
  f77 : Option PVal
  fc : Option PVal
deriving DecidableEq

/-- A value stored under `implicit_rpaths` in a raw entry: either a boolean
or a legacy list (the shape used before commit c22a145, per the source
comment). -/
inductive ImplicitRpathsVal where
  | vbool (b : Bool)
  | vlist (xs : List String)
deriving DecidableEq

/-- A value stored under `modules`: either the literal string form or a
list of module names. -/
inductive ModulesVal where
  | mstr (s : String)
  | mlist (xs : List String)
deriving DecidableEq

/-- A raw compiler config entry: the mapping found under the `"compiler"`
key of one element of the `compilers` section.  The `spec` key is required
by the data model; every other key is optional (`none` = key absent). -/
structure RawEntry where
  spec : String
  operating_system : Option String := none
  target : Option String := none
  paths : Option Paths := none
  modules : Option ModulesVal := none
  aliasName : Option String := none
  flags : List (String × String) := []
  environment : List (String × String) := []
  extra_rpaths : List String := []
  implicit_rpaths : Option ImplicitRpathsVal := none
deriving DecidableEq

/-- A compiler spec: name plus version constraint. -/
structure CSpec where
  name : String
  version : String
deriving DecidableEq

/-- Splits a character list at the first occurrence of `c`: the prefix
before it, and (when found) the remainder after it. -/
def breakAtChar (c : Char) : List Char → List Char × Option (List Char)
  | [] => ([], none)
  | x :: xs =>
    if x = c then ([], some xs)
    else
      let r := breakAtChar c xs
      (x :: r.1, r.2)

/-- Modelled from the spec: `spack.spec.parse_with_version_concrete` (an
out-of-scope collaborator of this module) parses a string such as
`gcc@11.1.0` into a CompilerSpec carrying a name and a version
constraint.  Only the name is inspected by the code under verification;
version-constraint satisfaction is taken as the primitive `satisfies`
parameter wherever the source calls it. -/
def parseSpec (s : String) : CSpec :=
  match breakAtChar '@' s.data with
  | (n, none) => ⟨String.mk n, ""⟩
  | (n, some v) => ⟨String.mk n, String.mk v⟩

/-- The resolved compiler object produced by `compiler_from_dict`. -/
structure Compiler where
  spec : CSpec
  operating_system : Option String
  target : Option String
  cc : Option String
  cxx : Option String
  f77 : Option String
  fc : Option String
  modules : Option ModulesVal
  aliasName : Option String
  environment : List (String × String)
  extra_rpaths : List String
  enable_implicit_rpaths : Option Bool
  flags : List (String × String)
deriving DecidableEq

/-- The exceptions raised by the module.  `targetFamilyValueError` models
the `ValueError` raised by `get_compilers` for a sub-architecture name
used where a target family was required (the spec's `ConfigurationError`);
`keyErrorUnknownTarget` models the uncaught `KeyError` from indexing the
archspec target table with an unknown entry target. -/
inductive CompilersError where
  | invalidCompilerConfiguration (cspec : CSpec)
  | unknownCompiler (name : String)
  | targetFamilyValueError (target : String) (family : String) (specStr : String)
  | keyErrorUnknownTarget (target : String)
  | noCompilerForSpec (cspec : CSpec) (os : String)
deriving DecidableEq

/-- The coercion applied to each of the four path values in
`compiler_from_dict`: the literal string value `"None"` becomes null,
every other value is kept. -/
def pathCoerce (v : PVal) : Option String :=
  if v = some "None" then none else v

/-- The compiler object constructed by a successful `compiler_from_dict`
call (the `cls(...)` construction at its end): coerces the `"None"`
strings in paths, normalizes `modules`, drops a non-boolean
`implicit_rpaths` value. -/
def buildCompiler (items : RawEntry) (p : Paths) : Compiler :=
  { spec := parseSpec items.spec
    operating_system := items.operating_system
    target := items.target
    cc := pathCoerce (p.cc.getD none)
    cxx := pathCoerce (p.cxx.getD none)
    f77 := pathCoerce (p.f77.getD none)
    fc := pathCoerce (p.fc.getD none)
    modules := if items.modules = some (.mstr "None") then
        some (.mlist []) else items.modules
    aliasName := items.aliasName
    environment := items.environment
    extra_rpaths := items.extra_rpaths
    enable_implicit_rpaths :=
      match items.implicit_rpaths with
      | some (.vbool b) => some b
      | _ => none
    flags := items.flags }

/-- `compiler_from_dict(items)`: validates that `paths` is present with
all four of `cc`, `cxx`, `f77`, `fc` (raising
`InvalidCompilerConfigurationError` otherwise), looks up the compiler
class (raising `UnknownCompilerError` when the spec's name is not a
supported compiler), then constructs the compiler object.  `supported`
models `supported_compilers()` (derived from the module listing of the
compiler package, outside this file's source). -/
def compiler_from_dict (supported : List String) (items : RawEntry) :
    Except CompilersError Compiler :=
  let cspec := parseSpec items.spec
  match items.paths with
  | none => .error (.invalidCompilerConfiguration cspec)
  | some p =>
    if p.cc.isNone || p.cxx.isNone || p.f77.isNone || p.fc.isNone then
      .error (.invalidCompilerConfiguration cspec)
    else if ¬ supported.contains cspec.name then
      .error (.unknownCompiler cspec.name)
    else
      .ok (buildCompiler items p)

/-- A constructed compiler object together with its Python object
identity. -/
structure CompilerObj where
  objId : Nat
  comp : Compiler
deriving DecidableEq

/-- A raw entry together with the Python object identity of the mapping
(the id of the dict stored under the `"compiler"` key, which is what
`CacheReference` captures). -/
structure EntryRef where
  refId : Nat
  items : RawEntry
deriving DecidableEq

/-- The module-level mutable state: the identity-keyed compiler cache
`_compiler_cache` (an association list keyed by dict id, caching
`none` for entries that failed softly), the allocator for fresh object
identities, and the warning / debug-log streams. -/
structure CState where
  cache : List (Nat × Option CompilerObj)
  nextObj : Nat
  warnings : List String
  dlog : List String
deriving DecidableEq

/-- The initial module state: empty cache, no emitted messages. -/
def initState : CState := ⟨[], 0, [], []⟩

/-- The message of `UnknownCompilerError`, emitted through
`warnings.warn` by `_compiler_from_config_entry`. -/
def unknownCompilerMessage (name : String) : String :=
  "Spack does not support the requested compiler: " ++ name

/-- `_compiler_from_config_entry(items)`: reads the identity cache with
`_compiler_cache.get(config_id, None)` and then tests `if compiler is
None:` — so only a cached non-null compiler is served as a hit; a stored
null is indistinguishable from a miss, and both re-run
`compiler_from_dict`, catching only `UnknownCompilerError` (calling
`warnings.warn` — again, for a stored null — and storing the null result)
and letting `InvalidCompilerConfigurationError` propagate (nothing is
stored in that case).  The dict assignment `_compiler_cache[config_id] =
compiler` is modelled by prepending to the association list, which
shadows any previous binding for lookup. -/
def _compiler_from_config_entry (supported : List String) (st : CState)
    (e : EntryRef) : Except CompilersError (Option CompilerObj × CState) :=
  match st.cache.lookup e.refId with
  | some (some obj) => .ok (some obj, st)
  | _ =>
    match compiler_from_dict supported e.items with
    | .ok c =>
      let obj : CompilerObj := ⟨st.nextObj, c⟩
      .ok (some obj,
        ⟨(e.refId, some obj) :: st.cache, st.nextObj + 1, st.warnings, st.dlog⟩)
    | .error (.unknownCompiler n) =>
      .ok (none,
        ⟨(e.refId, none) :: st.cache, st.nextObj,
         st.warnings ++ [unknownCompilerMessage n], st.dlog⟩)
    | .error err => .error err

/-- Whether a raw entry is missing the `paths` mapping or at least one of
the four required path keys (`cc`, `cxx`, `f77`, `fc`). -/
def missingPathKeys (items : RawEntry) : Bool :=
  match items.paths with
  | none => true
  | some p => p.cc.isNone || p.cxx.isNone || p.f77.isNone || p.fc.isNone

/-- An architecture spec with a concrete operating system and target, as
consumed by `get_compilers`. -/
structure Arch where
  os : String
  target : String
deriving DecidableEq

/-- The resolution of the arch spec's target to a family name in
`get_compilers`: `archspec.cpu.TARGETS[str(arch_spec.target)].family`,
falling back (on `KeyError`) to the raw target value.  The archspec
target table, an external collaborator, is the `targets` parameter. -/
def resolveFamily (targets : String → Option String) (arch : Arch) : String :=
  (targets arch.target).getD arch.target

/-- The target acceptance check of the `get_compilers` loop for one entry
against a given arch spec: an absent or Python-falsy (empty) target, the
wildcard `"any"`, or a target equal to the resolved family passes; an
entry target that archspec knows and whose family equals the arch's
resolved family raises the `ValueError` of line 598 (naming the entry's
spec); an entry target unknown to archspec raises the uncaught `KeyError`
of line 591; otherwise the entry does not match (`ok false`). -/
def entryTargetCheck (targets : String → Option String) (arch : Arch)
    (items : RawEntry) : Except CompilersError Bool :=
  let family := resolveFamily targets arch
  match items.target with
  | none => .ok true
  | some t =>
    if t = "" then .ok true
    else if t ≠ family ∧ t ≠ "any" then
      match targets t with
      | none => .error (.keyErrorUnknownTarget t)
      | some ft =>
        if ft = family then .error (.targetFamilyValueError t family items.spec)
        else .ok false
    else .ok true

/-- The compiler-spec filter of the `get_compilers` loop: when a spec
constraint is given, an entry whose parsed spec does not satisfy it is
skipped.  `satisfies` is the constraint-satisfaction primitive of the
external spec type. -/
def cspecFilterSkip (satisfies : CSpec → CSpec → Bool) (cspec : Option CSpec)
    (items : RawEntry) : Bool :=
  match cspec with
  | none => false
  | some q => ! satisfies (parseSpec items.spec) q

/-- `get_compilers(config, cspec, arch_spec)`: walks the config list in
order; per entry applies the spec filter, the operating-system filter and
`entryTargetCheck` (the latter two only when an arch spec is given),
resolves surviving entries through the identity cache, and keeps the
non-null resolutions.  Errors from the target check or from resolution
abort the whole call. -/
def get_compilers (targets : String → Option String)
    (satisfies : CSpec → CSpec → Bool) (supported : List String)
    (st : CState) (config : List EntryRef) (cspec : Option CSpec)
    (arch : Option Arch) : Except CompilersError (List CompilerObj × CState) :=
  match config with
  | [] => .ok ([], st)
  | e :: rest =>
    let keep : Except CompilersError Bool :=
      if cspecFilterSkip satisfies cspec e.items then .ok false
      else
        match arch with
        | none => .ok true
        | some a =>
          if e.items.operating_system ≠ some a.os then .ok false
          else entryTargetCheck targets a e.items
    match keep with
    | .error err => .error err
    | .ok false => get_compilers targets satisfies supported st rest cspec arch
    | .ok true =>
      match _compiler_from_config_entry supported st e with
      | .error err => .error err
      | .ok (copt, st1) =>
        match get_compilers targets satisfies supported st1 rest cspec arch with
        | .error err => .error err
        | .ok (cs, st2) =>
          match copt with
          | some c => .ok (c :: cs, st2)
          | none => .ok (cs, st2)

/-- First-occurrence deduplication with an explicit `seen` accumulator,
the shape of `llnl.util.lang.dedupe` and of Python `set` construction. -/
def pyDedupe {α : Type} [DecidableEq α] (seen : List α) : List α → List α
  | [] => []
  | x :: xs => if x ∈ seen then pyDedupe seen xs else x :: pyDedupe (x :: seen) xs

/-- Modelled from the spec: equality of resolved CompilerObjects is
semantic — "a compiler's identity for dedup purposes is its
CompilerObject's semantic equality (spec + os + target + paths)".  The
`spack.compiler.Compiler` equality method is outside the source under
verification. -/
def compilerSemEq (a b : Compiler) : Bool :=
  a.spec == b.spec && a.operating_system == b.operating_system &&
  a.target == b.target && a.cc == b.cc && a.cxx == b.cxx &&
  a.f77 == b.f77 && a.fc == b.fc

/-- Python equality between two dedup keys as produced by
`_compiler_from_config_entry`: `None == None` holds, a null key never
equals a compiler object, and compiler objects compare semantically. -/
def keyEq : Option CompilerObj → Option CompilerObj → Bool
  | none, none => true
  | some a, some b => compilerSemEq a.comp b.comp
  | _, _ => false

/-- The deduplication pass of `all_compilers_config`:
`llnl.util.lang.dedupe(result, key=...)` where the key of an element is
`_compiler_from_config_entry(c["compiler"] or id(c))`.  An entry mapping
always carries its required `spec` key here, hence is truthy and the
`or id(c)` fallback (for a falsy `"compiler"` value) is never taken: the
key is the resolved compiler object, or Python `None` for entries whose
compiler name is unsupported.  Key resolution threads the identity cache
and lets `InvalidCompilerConfigurationError` escape. -/
def dedupeByCompilerKey (supported : List String) (st : CState)
    (seen : List (Option CompilerObj)) (l : List EntryRef) :
    Except CompilersError (List EntryRef × CState) :=
  match l with
  | [] => .ok ([], st)
  | e :: rest =>
    match _compiler_from_config_entry supported st e with
    | .error err => .error err
    | .ok (k, st1) =>
      if seen.any (fun s => keyEq s k) then
        dedupeByCompilerKey supported st1 seen rest
      else
        match dedupeByCompilerKey supported st1 (k :: seen) rest with
        | .error err => .error err
        | .ok (kept, st2) => .ok (e :: kept, st2)

/-- `all_compilers_config(configuration)`: concatenates the entries read
from the `compilers` sections with the entries synthesized from
`packages.yaml` externals, then dedupes by resolved compiler.  The two
input lists are passed explicitly (the configuration reads and the
detector-initialization fallback are external to the modelled logic). -/
def all_compilers_config (supported : List String) (st : CState)
    (from_compilers_yaml from_packages_yaml : List EntryRef) :
    Except CompilersError (List EntryRef × CState) :=
  dedupeByCompilerKey supported st [] (from_compilers_yaml ++ from_packages_yaml)

/-- A configuration scope: a name, a writability flag, the contents of its
`compilers` section, and the compiler entries synthesized from its
`packages.yaml` external declarations.  Modelled from the spec for the
out-of-scope ConfigStore collaborator: "ordered scopes, each a mapping
from section name to data", "only writable scopes accept mutation". -/
structure Scope where
  name : String
  writable : Bool
  compilers : List EntryRef
  packagesCompilers : List EntryRef
deriving DecidableEq

/-- The layered configuration: the ordered scope list. -/
structure Config where
  scopes : List Scope
deriving DecidableEq

/-- `get_compiler_config(configuration, scope=s, init_config=False)`: the
`compilers` section stored in the named scope (empty when absent). -/
def get_compiler_config (cfg : Config) (scopeName : String) : List EntryRef :=
  ((cfg.scopes.find? (fun s => s.name = scopeName)).map (fun s => s.compilers)).getD []

/-- Writing the `compilers` section of the named scope
(`spack.config.CONFIG.set("compilers", value, scope=scope)`). -/
def setCompilerConfig (cfg : Config) (scopeName : String)
    (value : List EntryRef) : Config :=
  ⟨cfg.scopes.map (fun s => if s.name = scopeName then
      ⟨s.name, s.writable, value, s.packagesCompilers⟩ else s)⟩

/-- Whether one stored entry matches the spec being removed:
`parse_with_version_concrete(entry["compiler"]["spec"]).satisfies(compiler_spec)`. -/
def entryMatchesSpec (satisfies : CSpec → CSpec → Bool) (cspec : CSpec)
    (e : EntryRef) : Bool :=
  satisfies (parseSpec e.items.spec) cspec

/-- `_remove_compiler_from_scope(compiler_spec, scope)`: filters the
scope's stored list, returns `false` leaving the store untouched when the
filtered list has the same length, and otherwise writes the filtered list
back and returns `true`.  The returned string list extends the write log
(one record per `set` call) so that rewrites are observable. -/
def _remove_compiler_from_scope (satisfies : CSpec → CSpec → Bool)
    (cfg : Config) (writes : List String) (cspec : CSpec)
    (scopeName : String) : Bool × Config × List String :=
  let cc := get_compiler_config cfg scopeName
  let filtered := cc.filter (fun e => ! entryMatchesSpec satisfies cspec e)
  if filtered.length = cc.length then (false, cfg, writes)
  else (true, setCompilerConfig cfg scopeName filtered, writes ++ [scopeName])

/-- `remove_compiler_from_config(compiler_spec, scope)`: with a named
scope, only that scope is a candidate; with `scope=None` the candidate
list is `spack.config.CONFIG.scopes.keys()` — every scope of the
configuration.  The per-scope results are or-combined. -/
def remove_compiler_from_config (satisfies : CSpec → CSpec → Bool)
    (cfg : Config) (cspec : CSpec) (scope : Option String) :
    Bool × Config × List String :=
  let candidates : List String :=
    match scope with
    | some s => [s]
    | none => cfg.scopes.map (fun s => s.name)
  candidates.foldl
    (fun acc s =>
      let r := _remove_compiler_from_scope satisfies acc.2.1 acc.2.2 cspec s
      (acc.1 || r.1, r.2.1, r.2.2))
    (false, cfg, [])

/-- `find(compiler_spec, ...)`: the parsed specs of the config entries
that satisfy the queried spec (`all_compiler_specs` filtered by
`satisfies`). -/
def find_specs (satisfies : CSpec → CSpec → Bool) (config : List EntryRef)
    (cspec : CSpec) : List CSpec :=
  (config.map (fun e => parseSpec e.items.spec)).filter (fun s => satisfies s cspec)

/-- The loop of `compilers_for_spec`: extends the result with
`get_compilers(config, cspec, arch_spec)` for each matched spec. -/
def compilersForSpecLoop (targets : String → Option String)
    (satisfies : CSpec → CSpec → Bool) (supported : List String)
    (st : CState) (config : List EntryRef) (arch : Option Arch) :
    List CSpec → Except CompilersError (List CompilerObj × CState)
  | [] => .ok ([], st)
  | q :: qs =>
    match get_compilers targets satisfies supported st config (some q) arch with
    | .error err => .error err
    | .ok (cs, st1) =>
      match compilersForSpecLoop targets satisfies supported st1 config arch qs with
      | .error err => .error err
      | .ok (cs2, st2) => .ok (cs ++ cs2, st2)

/-- `compilers_for_spec(compiler_spec, arch_spec=...)`: collects all
compilers satisfying the supplied spec.  `matches = set(find(...))` is
modelled as first-occurrence deduplication of the found specs. -/
def compilers_for_spec (targets : String → Option String)
    (satisfies : CSpec → CSpec → Bool) (supported : List String)
    (st : CState) (config : List EntryRef) (cspec : CSpec)
    (arch : Option Arch) : Except CompilersError (List CompilerObj × CState) :=
  compilersForSpecLoop targets satisfies supported st config arch
    (pyDedupe [] (find_specs satisfies config cspec))

/-- The debug message logged by `compiler_for_spec` when more than one
compiler matches. -/
def multipleDefinitionsMessage (cspec : CSpec) : String :=
  "Multiple definitions of compiler " ++ cspec.name ++ "@" ++ cspec.version

/-- `compiler_for_spec(compiler_spec, arch_spec)`: raises
`NoCompilerForSpecError` when no compiler matches; with more than one
match, logs a debug message; in every non-empty case returns the first
element of the match list. -/
def compiler_for_spec (targets : String → Option String)
    (satisfies : CSpec → CSpec → Bool) (supported : List String)
    (st : CState) (config : List EntryRef) (cspec : CSpec) (arch : Arch) :
    Except CompilersError (CompilerObj × CState) :=
  match compilers_for_spec targets satisfies supported st config cspec (some arch) with
  | .error err => .error err
  | .ok ([], _) => .error (.noCompilerForSpec cspec arch.os)
  | .ok (c :: rest, st1) =>
    if rest.length + 1 > 1 then
      .ok (c, ⟨st1.cache, st1.nextObj, st1.warnings,
               st1.dlog ++ [multipleDefinitionsMessage cspec]⟩)
    else .ok (c, st1)

/-- Modelled from the spec: a CompilerFamily descriptor — "vendor name,
recognized executable-name sets per role".  The concrete compiler classes
(`compiler_cls.__name__`, `cc_names`, ...) live in per-family modules
outside the source under verification. -/
structure FamilyDesc where
  clsName : String
  cc_names : List String
  cxx_names : List String
  f77_names : List String
  fc_names : List String
deriving DecidableEq

/-- The characters after the last slash (helper for `basename`). -/
def basenameAux : List Char → List Char → List Char
  | acc, [] => acc
  | acc, c :: cs =>
    if c = '/' then basenameAux [] cs else basenameAux (acc ++ [c]) cs

/-- `os.path.basename` on a path string: the part after the last slash. -/
def basename (s : String) : String :=
  String.mk (basenameAux [] s.data)

/-- The characters before the first hyphen: the first component of
Python's `name.partition("-")`. -/
def beforeFirstDash : List Char → List Char
  | [] => []
  | c :: cs => if c = '-' then [] else c :: beforeFirstDash cs

/-- `name_matches(name, name_list)` from `is_mixed_toolchain`: the part of
the basename before the first hyphen must be non-empty, and the family's
recognized name list for the role must have exactly one member containing
it. -/
def name_matches (name : String) (name_list : List String) : Bool :=
  let n := String.mk (beforeFirstDash name.data)
  name_list.length == 1 && n != "" && name_list.contains n

/-- Whether a family class matches a compiler in `is_mixed_toolchain`:
some role's basenamed executable passes `name_matches` against that
role's recognized names. -/
def familyMatchesCompiler (c : Compiler) (d : FamilyDesc) : Bool :=
  name_matches (basename (c.cc.getD "")) d.cc_names ||
  name_matches (basename (c.cxx.getD "")) d.cxx_names ||
  name_matches (basename (c.f77.getD "")) d.f77_names ||
  name_matches (basename (c.fc.getD "")) d.fc_names

/-- The first explicitly allowed vendor combination of
`is_mixed_toolchain`. -/
def allowedCombo1 : List String := ["Clang", "AppleClang", "Aocc"]

/-- The second explicitly allowed vendor combination of
`is_mixed_toolchain` (the Msvc toolchain uses Intel ifx). -/
def allowedCombo2 : List String := ["Msvc", "Dpcpp", "Oneapi"]

/-- Python set equality between two listed collections: mutual
membership. -/
def listSetEq (a b : List String) : Bool :=
  a.all (fun x => b.contains x) && b.all (fun x => a.contains x)

/-- `is_mixed_toolchain(compiler)`: collects the set of family class
names matching some role, reports mixed when more than one family is
present, except for the two allowed vendor combinations.  `registry`
models `all_compiler_types()`. -/
def is_mixed_toolchain (registry : List FamilyDesc) (c : Compiler) : Bool :=
  let toolchains :=
    pyDedupe [] ((registry.filter (familyMatchesCompiler c)).map (fun d => d.clsName))
  if toolchains.length > 1 then
    if listSetEq toolchains allowedCombo1 || listSetEq toolchains allowedCombo2 then
      false
    else true
  else false

/-- The `compilers` sub-mapping of an external declaration's
`extra_attributes`.  Outer `Option` models key presence, the inner value a
possibly-null path. -/
structure ExtCompilers where
  c : Option (Option String)
  cxx : Option (Option String)
  fortran : Option (Option String)
deriving DecidableEq

/-- The `extra_attributes` mapping of an external declaration, as consumed
by `CompilerConfigFactory._extract_compiler_paths`. -/
structure ExtAttrs where
  compilers : Option ExtCompilers
deriving DecidableEq

/-- The `cc`/`cxx`/`fc`/`f77` mapping returned by
`_extract_compiler_paths` on success. -/
structure ExtPaths where
  cc : Option String
  cxx : Option String
  fc : Option String
  f77 : Option String
deriving DecidableEq

/-- The outcome of `_extract_compiler_paths`: a result (null on failure)
plus the warnings and debug messages emitted while running. -/
structure ExtractResult where
  paths : Option ExtPaths
  warnings : List String
  debugs : List String
deriving DecidableEq

/-- Warning for an external declaration without a `compilers` key. -/
def missingCompilersKeyMessage : String :=
  "cannot be used as a compiler: missing the compilers key under extra_attributes"

/-- Warning for an external declaration without a C compiler path key. -/
def missingCKeyMessage : String :=
  "cannot be used as a compiler: missing the C compiler path under extra_attributes:compilers"

/-- Debug note for an external declaration without a C++ compiler. -/
def noCxxDebugMessage : String :=
  "the external spec does not have a C++ compiler"

/-- Debug note for an external declaration without a Fortran compiler. -/
def noFortranDebugMessage : String :=
  "the external spec does not have a Fortran compiler"

/-- `CompilerConfigFactory._extract_compiler_paths(spec)`: warns and
returns null when `extra_attributes` lacks the `compilers` key or the C
path key; logs (debug only) absent C++ or Fortran keys; fills `fc` and
`f77` both from the single `fortran` attribute (`dict.get` collapses an
absent key and a null value to null). -/
def _extract_compiler_paths (ea : ExtAttrs) : ExtractResult :=
  match ea.compilers with
  | none => ⟨none, [missingCompilersKeyMessage], []⟩
  | some ac =>
    match ac.c with
    | none => ⟨none, [missingCKeyMessage], []⟩
    | some cval =>
      let dbg1 := if ac.cxx = none then [noCxxDebugMessage] else []
      let dbg2 := if ac.fortran = none then [noFortranDebugMessage] else []
      ⟨some ⟨cval, ac.cxx.join, ac.fortran.join, ac.fortran.join⟩, [], dbg1 ++ dbg2⟩

/-- The normalized executable name of one role, as the spec describes it:
basename, then the part before the first hyphen. -/
def normRole (p : Option String) : String :=
  String.mk (beforeFirstDash (basename (p.getD "")).data)

/-- The spec's phrasing of a family claiming a role: for some role, the
normalized executable name is non-empty and the family's recognized name
set for that role has exactly one member equal to it. -/
def familyClaimsRole (d : FamilyDesc) (c : Compiler) : Prop :=
  (normRole c.cc ≠ "" ∧ d.cc_names = [normRole c.cc]) ∨
  (normRole c.cxx ≠ "" ∧ d.cxx_names = [normRole c.cxx]) ∨
  (normRole c.f77 ≠ "" ∧ d.f77_names = [normRole c.f77]) ∨
  (normRole c.fc ≠ "" ∧ d.fc_names = [normRole c.fc])

/-- The spec's family set: a family name belongs to it when some
registered descriptor with that class name claims at least one role. -/
def claimsFamily (registry : List FamilyDesc) (c : Compiler) (n : String) : Prop :=
  ∃ d ∈ registry, d.clsName = n ∧ familyClaimsRole d c

/-- The claim's statement of mixed-toolchain classification: more than one
family claims a role, and the family set is not one of the two fixed
allowed vendor combinations. -/
def mixedSpecClaim (registry : List FamilyDesc) (c : Compiler) : Prop :=
  (∃ m n, m ≠ n ∧ claimsFamily registry c m ∧ claimsFamily registry c n) ∧
  ¬ ((∀ x, claimsFamily registry c x ↔ x ∈ allowedCombo1) ∨
     (∀ x, claimsFamily registry c x ↔ x ∈ allowedCombo2))

/-- The scope filtered as `_remove_compiler_from_scope` filters its
`compilers` section; the packages-synthesized entries are untouched. -/
def filterScope (satisfies : CSpec → CSpec → Bool) (cspec : CSpec)
    (s : Scope) : Scope :=
  ⟨s.name, s.writable,
   s.compilers.filter (fun e => ! entryMatchesSpec satisfies cspec e),
   s.packagesCompilers⟩

/-- Whether the `compilers` section stored under the given scope name has
an entry matching the removed spec. -/
def scopeHasMatch (satisfies : CSpec → CSpec → Bool) (cspec : CSpec)
    (cfg : Config) (n : String) : Bool :=
  (get_compiler_config cfg n).any (entryMatchesSpec satisfies cspec)

/-- A placeholder compiler value used only to project concrete results out
of `Option` in witness statements. -/
def defaultCompiler : Compiler :=
  ⟨⟨"", ""⟩, none, none, none, none, none, none, none, none, [], [], none, []⟩

/-- A fully-populated `paths` mapping. -/
def fullPaths : Paths :=
  ⟨some (some "/usr/bin/xcc"), some (some "/usr/bin/xcxx"),
   some (some "/usr/bin/xf77"), some (some "/usr/bin/xfc")⟩

/-- A raw entry with all four path keys present. -/
def fullEntry (s : String) : RawEntry :=
  { spec := s, paths := some fullPaths }

/-- A gcc raw entry with paths and an operating system, no target. -/
def gccEntry (os : String) : RawEntry :=
  { spec := "gcc@11.0", operating_system := some os, paths := some fullPaths }

/-- A gcc raw entry declaring a microarchitecture target. -/
def skylakeEntry : RawEntry :=
  { spec := "gcc@11.0", operating_system := some "ubuntu",
    target := some "skylake", paths := some fullPaths }

/-- A gcc raw entry declaring a target family. -/
def x86Entry : RawEntry :=
  { spec := "gcc@11.0", operating_system := some "ubuntu",
    target := some "x86_64", paths := some fullPaths }

/-- A raw entry declaring the wildcard target. -/
def anyTargetEntry : RawEntry :=
  { spec := "gcc@11.0", operating_system := some "ubuntu",
    target := some "any", paths := some fullPaths }

/-- A concrete instantiation of the `satisfies` primitive: name-only
matching, enough for the concrete witnesses. -/
def nameSatisfies (a b : CSpec) : Bool := a.name == b.name

/-- An archspec table knowing nothing. -/
def noTargets : String → Option String := fun _ => none

/-- A small concrete archspec table: `skylake` is an `x86_64`
microarchitecture, `x86_64` and `aarch64` are families. -/
def demoTargets : String → Option String := fun s =>
  if s = "skylake" || s = "x86_64" then some "x86_64"
  else if s = "aarch64" then some "aarch64" else none

/-- A configuration whose only scope is non-writable and stores one gcc
entry in its `compilers` section. -/
def nonWritableCfg : Config :=
  ⟨[⟨"site", false, [⟨10, gccEntry "ubuntu"⟩], []⟩]⟩

/-- A configuration with a writable scope holding a matching compiler
entry and a non-writable scope holding only a packages-synthesized
entry. -/
def mixedCfg : Config :=
  ⟨[⟨"user", true, [⟨11, gccEntry "ubuntu"⟩], []⟩,
    ⟨"site", false, [], [⟨12, gccEntry "ubuntu"⟩]⟩]⟩

/-- A raw entry whose `implicit_rpaths` carries a legacy list value. -/
def rpathsListEntry : RawEntry :=
  { spec := "gcc@11.0", paths := some fullPaths,
    implicit_rpaths := some (.vlist ["/usr/lib"]) }

/-- The compiler constructed from `rpathsListEntry` (projected out of the
`Except` for use in closed statements). -/
def rpathsListCompiler : Compiler :=
  match compiler_from_dict ["gcc"] rpathsListEntry with
  | .ok c => c
  | .error _ => defaultCompiler

/-- The result of resolving the entry object `21` from the initial state,
projected for use in closed statements. -/
def resolveFirst : Option CompilerObj × CState :=
  match _compiler_from_config_entry ["gcc"] initState ⟨21, gccEntry "ubuntu"⟩ with
  | .ok p => p
  | .error _ => (none, initState)

/-- The result of then resolving the distinct but content-identical entry
object `22`, projected for use in closed statements. -/
def resolveSecond : Option CompilerObj × CState :=
  match _compiler_from_config_entry ["gcc"] resolveFirst.2 ⟨22, gccEntry "ubuntu"⟩ with
  | .ok p => p
  | .error _ => (none, initState)

theorem compiler_from_dict_missing (supported : List String) (items : RawEntry)
    (h : missingPathKeys items = true) :
    compiler_from_dict supported items
      = .error (.invalidCompilerConfiguration (parseSpec items.spec)) := by
  cases hp : items.paths with
  | none => simp [compiler_from_dict, hp]
  | some p =>
    simp only [missingPathKeys, hp] at h
    simp [compiler_from_dict, hp, h]

theorem compiler_from_dict_unknown (supported : List String) (items : RawEntry)
    (h1 : missingPathKeys items = false)
    (h2 : supported.contains (parseSpec items.spec).name = false) :
    compiler_from_dict supported items
      = .error (.unknownCompiler (parseSpec items.spec).name) := by
  cases hp : items.paths with
  | none => simp [missingPathKeys, hp] at h1
  | some p =>
    simp only [missingPathKeys, hp] at h1
    have h2m : (parseSpec items.spec).name ∉ supported := by simpa using h2
    simp [compiler_from_dict, hp, h1, h2m]

theorem compiler_from_dict_ok (supported : List String) (items : RawEntry)
    (p : Paths) (hp : items.paths = some p)
    (h1 : missingPathKeys items = false)
    (h2 : supported.contains (parseSpec items.spec).name = true) :
    compiler_from_dict supported items = .ok (buildCompiler items p) := by
  simp only [missingPathKeys, hp] at h1
  have h2m : (parseSpec items.spec).name ∈ supported := by simpa using h2
  simp [compiler_from_dict, hp, h1, h2m]

theorem resolve_cached (supported : List String) (st : CState) (e : EntryRef)
    (obj : CompilerObj) (h : st.cache.lookup e.refId = some (some obj)) :
    _compiler_from_config_entry supported st e = .ok (some obj, st) := by
  simp [_compiler_from_config_entry, h]

theorem resolve_fresh_some (supported : List String) (st : CState)
    (e : EntryRef) (o : CompilerObj) (st1 : CState)
    (hm : st.cache.lookup e.refId = none)
    (h : _compiler_from_config_entry supported st e = .ok (some o, st1)) :
    o.objId = st.nextObj ∧
    st1 = ⟨(e.refId, some o) :: st.cache, st.nextObj + 1, st.warnings, st.dlog⟩ := by
  simp only [_compiler_from_config_entry, hm] at h
  cases hc : compiler_from_dict supported e.items with
  | ok c =>
    rw [hc] at h
    simp only [Except.ok.injEq, Prod.mk.injEq, Option.some.injEq] at h
    obtain ⟨ho, hst⟩ := h
    subst ho
    exact ⟨rfl, hst.symm⟩
  | error err =>
    rw [hc] at h
    cases err <;> simp_all

theorem resolve_stale_some (supported : List String) (st : CState)
    (e : EntryRef) (o : CompilerObj) (st1 : CState)
    (hm : st.cache.lookup e.refId = some none)
    (h : _compiler_from_config_entry supported st e = .ok (some o, st1)) :
    o.objId = st.nextObj ∧
    st1 = ⟨(e.refId, some o) :: st.cache, st.nextObj + 1, st.warnings, st.dlog⟩ := by
  simp only [_compiler_from_config_entry, hm] at h
  cases hc : compiler_from_dict supported e.items with
  | ok c =>
    rw [hc] at h
    simp only [Except.ok.injEq, Prod.mk.injEq, Option.some.injEq] at h
    obtain ⟨ho, hst⟩ := h
    subst ho
    exact ⟨rfl, hst.symm⟩
  | error err =>
    rw [hc] at h
    cases err <;> simp_all

/-- The state after a soft (unknown-compiler) resolution failure: the null
result cached under the entry's identity, the warning emitted. -/
theorem resolve_unknown (supported : List String) (st : CState) (e : EntryRef)
    (hm : st.cache.lookup e.refId = none)
    (h1 : missingPathKeys e.items = false)
    (h2 : supported.contains (parseSpec e.items.spec).name = false) :
    _compiler_from_config_entry supported st e
      = .ok (none, ⟨(e.refId, none) :: st.cache, st.nextObj,
          st.warnings ++ [unknownCompilerMessage (parseSpec e.items.spec).name],
          st.dlog⟩) := by
  simp [_compiler_from_config_entry, hm,
    compiler_from_dict_unknown supported e.items h1 h2]

/-- Claim C1: resolution of a raw entry raises
`InvalidCompilerConfiguration` if and only if the entry lacks at least one
of the four required path keys (a present key with a null value resolves
successfully), and the exception propagates through `get_compilers`;
whereas an entry naming an unsupported compiler fails softly: the null
result is returned, a warning is emitted, the null is cached, and
iteration continues over the remaining entries. -/
theorem resolution_invalid_iff_missing_path_keys (supported : List String)
    (st : CState) (e : EntryRef)
    (hmiss : st.cache.lookup e.refId = none) :
    ((∃ cs, _compiler_from_config_entry supported st e
        = .error (.invalidCompilerConfiguration cs))
      ↔ missingPathKeys e.items = true)
  ∧ (missingPathKeys e.items = true →
      ∀ tg sat rest,
        get_compilers tg sat supported st (e :: rest) none none
          = .error (.invalidCompilerConfiguration (parseSpec e.items.spec)))
  ∧ (missingPathKeys e.items = false →
      supported.contains (parseSpec e.items.spec).name = false →
        _compiler_from_config_entry supported st e
          = .ok (none, ⟨(e.refId, none) :: st.cache, st.nextObj,
              st.warnings ++ [unknownCompilerMessage (parseSpec e.items.spec).name],
              st.dlog⟩)
      ∧ ∀ tg sat rest,
          get_compilers tg sat supported st (e :: rest) none none
            = get_compilers tg sat supported
                ⟨(e.refId, none) :: st.cache, st.nextObj,
                 st.warnings ++ [unknownCompilerMessage (parseSpec e.items.spec).name],
                 st.dlog⟩ rest none none)
  ∧ (missingPathKeys e.items = false →
      supported.contains (parseSpec e.items.spec).name = true →
      ∀ p, e.items.paths = some p →
        _compiler_from_config_entry supported st e
          = .ok (some ⟨st.nextObj, buildCompiler e.items p⟩,
              ⟨(e.refId, some ⟨st.nextObj, buildCompiler e.items p⟩) :: st.cache,
               st.nextObj + 1, st.warnings, st.dlog⟩)) := by
  refine ⟨⟨?_, ?_⟩, ?_, ?_, ?_⟩
  · rintro ⟨cs, hres⟩
    by_contra hb
    have h1 : missingPathKeys e.items = false := by
      cases h : missingPathKeys e.items
      · rfl
      · exact absurd h hb
    cases h2 : supported.contains (parseSpec e.items.spec).name
    · rw [resolve_unknown supported st e hmiss h1 h2] at hres
      exact Except.noConfusion hres
    · obtain ⟨p, hp⟩ : ∃ p, e.items.paths = some p := by
        cases hp : e.items.paths
        · simp [missingPathKeys, hp] at h1
        · exact ⟨_, rfl⟩
      have := compiler_from_dict_ok supported e.items p hp h1 h2
      simp [_compiler_from_config_entry, hmiss, this] at hres
  · intro h
    have hc := compiler_from_dict_missing supported e.items h
    refine ⟨parseSpec e.items.spec, ?_⟩
    simp [_compiler_from_config_entry, hmiss, hc]
  · intro h tg sat rest
    have hc := compiler_from_dict_missing supported e.items h
    simp [get_compilers, cspecFilterSkip, _compiler_from_config_entry, hmiss, hc]
  · intro h1 h2
    refine ⟨resolve_unknown supported st e hmiss h1 h2, ?_⟩
    intro tg sat rest
    simp only [get_compilers, cspecFilterSkip,
      resolve_unknown supported st e hmiss h1 h2]
    cases hres : get_compilers tg sat supported
        ⟨(e.refId, none) :: st.cache, st.nextObj,
         st.warnings ++ [unknownCompilerMessage (parseSpec e.items.spec).name],
         st.dlog⟩ rest none none with
    | error err => simp
    | ok p =>
      obtain ⟨cs, st2⟩ := p
      simp
  · intro h1 h2 p hp
    simp [_compiler_from_config_entry, hmiss,
      compiler_from_dict_ok supported e.items p hp h1 h2]

/-- Witness for C1 at concrete entries: an entry with the `cc` key absent
aborts `get_compilers` with `InvalidCompilerConfiguration`; an entry with
all path keys but an unsupported compiler name resolves to a cached null
with a warning. -/
theorem resolution_invalid_iff_missing_path_keys_witness :
    get_compilers noTargets nameSatisfies ["gcc"] initState
        [⟨31, { spec := "gcc@11.0" }⟩] none none
      = .error (.invalidCompilerConfiguration ⟨"gcc", "11.0"⟩)
  ∧ _compiler_from_config_entry ["gcc"] initState ⟨32, fullEntry "weirdcc@1.0"⟩
      = .ok (none, ⟨[(32, none)], 0, [unknownCompilerMessage "weirdcc"], []⟩) :=
  ⟨(resolution_invalid_iff_missing_path_keys ["gcc"] initState
      ⟨31, { spec := "gcc@11.0" }⟩ rfl).2.1 rfl noTargets nameSatisfies [],
   ((resolution_invalid_iff_missing_path_keys ["gcc"] initState
      ⟨32, fullEntry "weirdcc@1.0"⟩ rfl).2.2.1 rfl (by decide)).1⟩

/-- Claim C2: resolution is memoized by reference identity of the raw
entry mapping, not by its contents: once resolving an entry object has
produced a compiler object, resolving the same entry object again returns
the identical cached object and leaves the state unchanged; while
resolving two distinct entry objects with identical contents constructs
two distinct compiler objects.  (Only a non-null result is a cache hit:
the program's `if compiler is None:` re-runs construction for a stored
null, so the memoization guarantee of the claim concerns the returned
CompilerObjects.) -/
theorem resolution_memoized_by_identity :
    (∀ (supported : List String) (st : CState) (e : EntryRef)
        (obj : CompilerObj) (st1 : CState),
        _compiler_from_config_entry supported st e = .ok (some obj, st1) →
        _compiler_from_config_entry supported st1 e = .ok (some obj, st1))
  ∧ (∀ (supported : List String) (st : CState) (e1 e2 : EntryRef)
        (o1 o2 : CompilerObj) (st1 st2 : CState),
        e1.items = e2.items → e1.refId ≠ e2.refId →
        st.cache.lookup e1.refId = none → st.cache.lookup e2.refId = none →
        _compiler_from_config_entry supported st e1 = .ok (some o1, st1) →
        _compiler_from_config_entry supported st1 e2 = .ok (some o2, st2) →
        o1 ≠ o2) := by
  constructor
  · intro supported st e obj st1 h
    have hconstructed : obj.objId = st.nextObj ∧
        st1 = ⟨(e.refId, some obj) :: st.cache, st.nextObj + 1,
               st.warnings, st.dlog⟩ ∨
        (st.cache.lookup e.refId = some (some obj) ∧ st1 = st) := by
      cases hm : st.cache.lookup e.refId with
      | some cached =>
        cases cached with
        | some r0 =>
          rw [resolve_cached supported st e r0 hm] at h
          simp only [Except.ok.injEq, Prod.mk.injEq, Option.some.injEq] at h
          obtain ⟨hr, hst⟩ := h
          exact Or.inr ⟨by rw [hr], hst.symm⟩
        | none => exact Or.inl (resolve_stale_some supported st e obj st1 hm h)
      | none => exact Or.inl (resolve_fresh_some supported st e obj st1 hm h)
    rcases hconstructed with ⟨hobj, hst1⟩ | ⟨hm, hst1⟩
    · refine resolve_cached supported st1 e obj ?_
      rw [hst1]
      simp [List.lookup_cons]
    · subst hst1
      exact resolve_cached supported st1 e obj hm
  · intro supported st e1 e2 o1 o2 st1 st2 hitems hid h1 h2 hr1 hr2
    obtain ⟨ho1, hst1⟩ := resolve_fresh_some supported st e1 o1 st1 h1 hr1
    have hm2 : st1.cache.lookup e2.refId = none := by
      rw [hst1]
      simp only [List.lookup_cons]
      have : (e2.refId == e1.refId) = false := by
        simpa using fun hcontra => hid hcontra.symm
      rw [this]
      exact h2
    obtain ⟨ho2, hst2⟩ := resolve_fresh_some supported st1 e2 o2 st2 hm2 hr2
    intro hcontra
    rw [hcontra] at ho1
    rw [ho1, hst1] at ho2
    simp at ho2

/-- Witness for C2: entry objects `21` and `22` share identical contents;
resolving `21` twice returns the identical cached object and state, and
the objects constructed for `21` and `22` are distinct. -/
theorem resolution_memoized_by_identity_witness :
    _compiler_from_config_entry ["gcc"] resolveFirst.2 ⟨21, gccEntry "ubuntu"⟩
        = .ok (some (resolveFirst.1.getD ⟨0, defaultCompiler⟩), resolveFirst.2)
  ∧ (resolveFirst.1.getD ⟨0, defaultCompiler⟩)
      ≠ (resolveSecond.1.getD ⟨0, defaultCompiler⟩) :=
  ⟨resolution_memoized_by_identity.1 ["gcc"] initState ⟨21, gccEntry "ubuntu"⟩
      (resolveFirst.1.getD ⟨0, defaultCompiler⟩) resolveFirst.2 (by rfl),
   resolution_memoized_by_identity.2 ["gcc"] initState
      ⟨21, gccEntry "ubuntu"⟩ ⟨22, gccEntry "ubuntu"⟩
      (resolveFirst.1.getD ⟨0, defaultCompiler⟩)
      (resolveSecond.1.getD ⟨0, defaultCompiler⟩)
      resolveFirst.2 resolveSecond.2 rfl (by decide) rfl rfl (by rfl) (by rfl)⟩

/-- Claim C10: a present but non-boolean `implicit_rpaths` value (such as
a legacy list) is silently coerced to unset during construction, a boolean
value is kept, and an absent key stays unset, so the constructed
compiler's implicit-rpath tri-state is always a boolean or unset. -/
theorem implicit_rpaths_tri_state (supported : List String) (items : RawEntry) :
    (∀ xs c, items.implicit_rpaths = some (.vlist xs) →
        compiler_from_dict supported items = .ok c →
        c.enable_implicit_rpaths = none)
  ∧ (∀ b c, items.implicit_rpaths = some (.vbool b) →
        compiler_from_dict supported items = .ok c →
        c.enable_implicit_rpaths = some b)
  ∧ (∀ c, items.implicit_rpaths = none →
        compiler_from_dict supported items = .ok c →
        c.enable_implicit_rpaths = none) := by
  have hbuild : ∀ c, compiler_from_dict supported items = .ok c →
      c.enable_implicit_rpaths =
        match items.implicit_rpaths with
        | some (.vbool b) => some b
        | _ => none := by
    intro c h
    cases hp : items.paths with
    | none => simp [compiler_from_dict, hp] at h
    | some p =>
      simp only [compiler_from_dict, hp] at h
      by_cases h1 : (p.cc.isNone || p.cxx.isNone || p.f77.isNone || p.fc.isNone) = true
      · rw [if_pos h1] at h
        exact Except.noConfusion h
      · rw [if_neg h1] at h
        by_cases h2 : supported.contains (parseSpec items.spec).name = true
        · rw [if_neg (by simpa using h2)] at h
          simp only [Except.ok.injEq] at h
          subst h
          rfl
        · rw [if_pos h2] at h
          exact Except.noConfusion h
  refine ⟨?_, ?_, ?_⟩
  · intro xs c hx h
    rw [hbuild c h, hx]
  · intro b c hx h
    rw [hbuild c h, hx]
  · intro c hx h
    rw [hbuild c h, hx]

/-- Witness for C10: the entry with the legacy list value constructs
successfully and its implicit-rpath state is unset. -/
theorem implicit_rpaths_tri_state_witness :
    rpathsListCompiler.enable_implicit_rpaths = none :=
  (implicit_rpaths_tri_state ["gcc"] rpathsListEntry).1 ["/usr/lib"]
    rpathsListCompiler rfl (by rfl)

/-- Claim C3: an entry declaring a target that differs from the arch's
resolved target family and is not `any`, but whose target string names a
known target with the arch's resolved family (a sub-architecture name
where a family name was required), makes the filter raise the
configuration error (the `ValueError` of `get_compilers`, naming the
offending entry's spec) instead of merely excluding the entry. -/
theorem target_family_configuration_error (targets : String → Option String)
    (sat : CSpec → CSpec → Bool) (supported : List String) (st : CState)
    (e : EntryRef) (a : Arch) (t ft : String)
    (hos : e.items.operating_system = some a.os)
    (ht : e.items.target = some t)
    (hne : t ≠ resolveFamily targets a) (hany : t ≠ "any") (hnil : t ≠ "")
    (hft : targets t = some ft) (hfam : ft = resolveFamily targets a) :
    get_compilers targets sat supported st [e] none (some a)
      = .error
          (.targetFamilyValueError t (resolveFamily targets a) e.items.spec) := by
  have hcheck : entryTargetCheck targets a e.items
      = .error (.targetFamilyValueError t (resolveFamily targets a) e.items.spec) := by
    simp only [entryTargetCheck, ht]
    rw [if_neg hnil, if_pos ⟨hne, hany⟩, hft]
    simp [hfam]
  simp [get_compilers, cspecFilterSkip, hos, hcheck]

/-- Witness for C3: the entry declaring `target: skylake` queried against
an arch whose target `skylake` resolves to family `x86_64` aborts with the
error naming the entry. -/
theorem target_family_configuration_error_witness :
    get_compilers demoTargets nameSatisfies ["gcc"] initState
        [⟨5, skylakeEntry⟩] none (some ⟨"ubuntu", "skylake"⟩)
      = .error (.targetFamilyValueError "skylake" "x86_64" "gcc@11.0") :=
  target_family_configuration_error demoTargets nameSatisfies ["gcc"] initState
    ⟨5, skylakeEntry⟩ ⟨"ubuntu", "skylake"⟩ "skylake" "x86_64"
    rfl rfl (by decide) (by decide) (by decide) rfl (by decide)

/-- The `demoTargets` table maps every family it mentions to itself. -/
theorem demoTargets_idem : ∀ x f, demoTargets x = some f → demoTargets f = some f := by
  intro x f h
  simp only [demoTargets] at h ⊢
  by_cases h1 : (x = "skylake" || x = "x86_64") = true
  · rw [if_pos h1] at h
    obtain hf := Option.some.injEq .. ▸ h
    simp at hf
    subst hf
    simp
  · rw [if_neg h1] at h
    by_cases h2 : x = "aarch64"
    · rw [if_pos h2] at h
      simp at h
      subst h
      simp
    · rw [if_neg h2] at h
      exact Option.noConfusion h

/-- Claim C7: the per-entry arch filter of `get_compilers`: an entry whose
operating system differs from the arch's is excluded; `target: any` passes
the target check for every arch; an entry whose declared target family
differs from the arch's resolved family is excluded without error; an
entry declaring no target always passes the target check. -/
theorem arch_filter_behaviour :
    (∀ (targets : String → Option String) (sat : CSpec → CSpec → Bool)
        (supported : List String) (st : CState) (e : EntryRef) (a : Arch),
        e.items.operating_system ≠ some a.os →
        get_compilers targets sat supported st [e] none (some a) = .ok ([], st))
  ∧ (∀ (targets : String → Option String) (a : Arch) (items : RawEntry),
        items.target = some "any" → entryTargetCheck targets a items = .ok true)
  ∧ (∀ (targets : String → Option String) (sat : CSpec → CSpec → Bool)
        (supported : List String) (st : CState) (e : EntryRef) (a : Arch)
        (t ft : String),
        (∀ x f, targets x = some f → targets f = some f) →
        e.items.operating_system = some a.os →
        e.items.target = some t → t ≠ "any" → t ≠ "" →
        targets t = some ft → ft ≠ resolveFamily targets a →
        get_compilers targets sat supported st [e] none (some a) = .ok ([], st))
  ∧ (∀ (targets : String → Option String) (a : Arch) (items : RawEntry),
        items.target = none → entryTargetCheck targets a items = .ok true) := by
  refine ⟨?_, ?_, ?_, ?_⟩
  · intro targets sat supported st e a hos
    simp [get_compilers, cspecFilterSkip, hos]
  · intro targets a items ht
    simp only [entryTargetCheck, ht]
    by_cases hfam : "any" = resolveFamily targets a
    · rw [if_neg (by simp), if_neg (by simp [hfam])]
    · rw [if_neg (by simp), if_neg (by simp)]
  · intro targets sat supported st e a t ft hidem hos ht hany hnil hft hfam
    have hne : t ≠ resolveFamily targets a := by
      intro hcontra
      rcases hres : targets a.target with hnone | f
      · have : resolveFamily targets a = a.target := by
          simp [resolveFamily, hres]
        rw [this] at hcontra
        rw [hcontra] at hft
        rw [hft] at hres
        exact Option.noConfusion hres
      · have hfamv : resolveFamily targets a = f := by
          simp [resolveFamily, hres]
        have : targets f = some f := hidem a.target f hres
        rw [hcontra, hfamv] at hft
        rw [this] at hft
        have : ft = f := by
          have hx : f = ft := by simpa using hft
          exact hx.symm
        exact hfam (this.trans hfamv.symm)
    have hcheck : entryTargetCheck targets a e.items = .ok false := by
      simp only [entryTargetCheck, ht]
      rw [if_neg hnil, if_pos ⟨hne, hany⟩, hft]
      simp [hfam]
    simp [get_compilers, cspecFilterSkip, hos, hcheck]
  · intro targets a items ht
    simp [entryTargetCheck, ht]

/-- Witness for C7 at concrete inputs: an OS-mismatched entry is dropped;
`target: any` passes; a family-mismatched entry (`x86_64` against
`aarch64`) is dropped without error; a targetless entry passes. -/
theorem arch_filter_behaviour_witness :
    get_compilers demoTargets nameSatisfies ["gcc"] initState
        [⟨3, gccEntry "debian"⟩] none (some ⟨"ubuntu", "x86_64"⟩) = .ok ([], initState)
  ∧ entryTargetCheck demoTargets ⟨"ubuntu", "aarch64"⟩ anyTargetEntry = .ok true
  ∧ get_compilers demoTargets nameSatisfies ["gcc"] initState
        [⟨4, x86Entry⟩] none (some ⟨"ubuntu", "aarch64"⟩) = .ok ([], initState)
  ∧ entryTargetCheck demoTargets ⟨"ubuntu", "x86_64"⟩ (gccEntry "ubuntu") = .ok true :=
  ⟨arch_filter_behaviour.1 demoTargets nameSatisfies ["gcc"] initState
      ⟨3, gccEntry "debian"⟩ ⟨"ubuntu", "x86_64"⟩ (by decide),
   arch_filter_behaviour.2.1 demoTargets ⟨"ubuntu", "aarch64"⟩ anyTargetEntry rfl,
   arch_filter_behaviour.2.2.1 demoTargets nameSatisfies ["gcc"] initState
      ⟨4, x86Entry⟩ ⟨"ubuntu", "aarch64"⟩ "x86_64" "x86_64" demoTargets_idem
      rfl rfl (by decide) (by decide) rfl (by decide),
   arch_filter_behaviour.2.2.2 demoTargets ⟨"ubuntu", "x86_64"⟩ (gccEntry "ubuntu") rfl⟩

/-- Claim C4 (evaluation at the failing input): two distinct raw entries
(distinct identities, even different contents) that both fail validation
because their compiler names are unsupported each resolve to a null dedup
key, and `all_compilers_config` deduplicates the second against the first
— contradicting the source's own comment ("If the entry is invalid, treat
it as unique for deduplication"), because the `or id(c)` fallback in
`key = lambda c: _compiler_from_config_entry(c["compiler"] or id(c))`
applies to the raw mapping, not to the resolution result. -/
theorem invalid_entries_are_deduplicated :
    (all_compilers_config ["gcc"] initState
        [⟨1, fullEntry "foo@1.0"⟩, ⟨2, fullEntry "bar@2.0"⟩] []).map
          (fun r => r.1)
      = .ok [⟨1, fullEntry "foo@1.0"⟩] := rfl

/-- Claim C9: the external-declaration path extractor returns null with a
warning when the C compiler path key is absent; produces a valid mapping
with null «cxx»/«f77»/«fc» and only debug logging when only the C path is
present; and fills both «f77» and «fc» from the single `fortran`
attribute whenever a fortran path is present. -/
theorem extract_compiler_paths_behaviour :
    (∀ ac : ExtCompilers, ac.c = none →
        _extract_compiler_paths ⟨some ac⟩ = ⟨none, [missingCKeyMessage], []⟩)
  ∧ (∀ cv : Option String,
        _extract_compiler_paths ⟨some ⟨some cv, none, none⟩⟩
          = ⟨some ⟨cv, none, none, none⟩, [],
             [noCxxDebugMessage, noFortranDebugMessage]⟩)
  ∧ (∀ (ac : ExtCompilers) (cv : Option String) (fp : String),
        ac.c = some cv → ac.fortran = some (some fp) →
        ∃ r, (_extract_compiler_paths ⟨some ac⟩).paths = some r ∧
          r.fc = some fp ∧ r.f77 = some fp ∧
          (_extract_compiler_paths ⟨some ac⟩).warnings = []) := by
  refine ⟨?_, ?_, ?_⟩
  · intro ac hc
    simp [_extract_compiler_paths, hc]
  · intro cv
    simp [_extract_compiler_paths]
  · intro ac cv fp hc hf
    refine ⟨⟨cv, ac.cxx.join, some fp, some fp⟩, ?_, rfl, rfl, ?_⟩ <;>
      simp [_extract_compiler_paths, hc, hf]

/-- Witness for C9: a declaration whose `compilers` mapping has no C key
yields null with the warning; one carrying a fortran path fills both
fortran roles. -/
theorem extract_compiler_paths_behaviour_witness :
    _extract_compiler_paths ⟨some ⟨none, none, some (some "/usr/bin/gfortran")⟩⟩
        = ⟨none, [missingCKeyMessage], []⟩
  ∧ (_extract_compiler_paths
        ⟨some ⟨some (some "/usr/bin/gcc"), none, some (some "/usr/bin/gfortran")⟩⟩).paths
      = some ⟨some "/usr/bin/gcc", none, some "/usr/bin/gfortran", some "/usr/bin/gfortran"⟩ :=
  ⟨extract_compiler_paths_behaviour.1
      ⟨none, none, some (some "/usr/bin/gfortran")⟩ rfl,
   by
    obtain ⟨r, hr, hfc, hf77, hw⟩ := extract_compiler_paths_behaviour.2.2
      ⟨some (some "/usr/bin/gcc"), none, some (some "/usr/bin/gfortran")⟩
      (some "/usr/bin/gcc") "/usr/bin/gfortran" rfl rfl
    rw [hr]
    have : r = ⟨some "/usr/bin/gcc", none, some "/usr/bin/gfortran", some "/usr/bin/gfortran"⟩ := by
      have hx := hr
      simp [_extract_compiler_paths] at hx
      exact hx.symm
    rw [this]⟩

/-- Claim C6: `compiler_for_spec` raises `NoCompilerForSpecError` exactly
when the match set is empty; with one or more matches it returns the first
match in merge order, and with more than one it additionally logs the
ambiguity instead of failing. -/
theorem compiler_for_spec_first_match (targets : String → Option String)
    (sat : CSpec → CSpec → Bool) (supported : List String) (st : CState)
    (config : List EntryRef) (cspec : CSpec) (arch : Arch)
    (cs : List CompilerObj) (st1 : CState)
    (h : compilers_for_spec targets sat supported st config cspec (some arch)
        = .ok (cs, st1)) :
    (cs = [] → compiler_for_spec targets sat supported st config cspec arch
        = .error (.noCompilerForSpec cspec arch.os))
  ∧ (∀ c rest, cs = c :: rest →
      (rest = [] → compiler_for_spec targets sat supported st config cspec arch
          = .ok (c, st1))
      ∧ (rest ≠ [] → compiler_for_spec targets sat supported st config cspec arch
          = .ok (c, ⟨st1.cache, st1.nextObj, st1.warnings,
                     st1.dlog ++ [multipleDefinitionsMessage cspec]⟩))) := by
  constructor
  · intro hnil
    subst hnil
    simp [compiler_for_spec, h]
  · intro c rest hcons
    subst hcons
    constructor
    · intro hnil
      subst hnil
      simp [compiler_for_spec, h]
    · intro hnonnil
      have hlen : 0 < rest.length := List.length_pos.mpr hnonnil
      simp only [compiler_for_spec, h]
      rw [if_pos (by omega)]

/-- Witness for C6: with an empty configuration the match set is empty and
the call fails with `NoCompilerForSpecError`. -/
theorem compiler_for_spec_first_match_witness :
    compiler_for_spec demoTargets nameSatisfies ["gcc"] initState []
        ⟨"gcc", "11.0"⟩ ⟨"ubuntu", "x86_64"⟩
      = .error (.noCompilerForSpec ⟨"gcc", "11.0"⟩ "ubuntu") :=
  (compiler_for_spec_first_match demoTargets nameSatisfies ["gcc"] initState []
      ⟨"gcc", "11.0"⟩ ⟨"ubuntu", "x86_64"⟩ [] initState rfl).1 rfl

theorem mem_pyDedupe {α : Type} [DecidableEq α] (seen : List α) (l : List α)
    (x : α) : x ∈ pyDedupe seen l ↔ x ∈ l ∧ x ∉ seen := by
  induction l generalizing seen with
  | nil => simp [pyDedupe]
  | cons y ys ih =>
    by_cases hy : y ∈ seen
    · rw [pyDedupe, if_pos hy, ih]
      constructor
      · rintro ⟨hmem, hns⟩
        exact ⟨List.mem_cons_of_mem y hmem, hns⟩
      · rintro ⟨hmem, hns⟩
        rcases List.mem_cons.mp hmem with hxy | hmem2
        · exact absurd (hxy ▸ hy) hns
        · exact ⟨hmem2, hns⟩
    · rw [pyDedupe, if_neg hy]
      simp only [List.mem_cons, ih, List.mem_cons]
      constructor
      · rintro (hxy | ⟨hmem, hns⟩)
        · exact ⟨Or.inl hxy, hxy ▸ hy⟩
        · exact ⟨Or.inr hmem, fun hc => hns (Or.inr hc)⟩
      · rintro ⟨hxy | hmem, hns⟩
        · exact Or.inl hxy
        · by_cases hxy2 : x = y
          · exact Or.inl hxy2
          · exact Or.inr ⟨hmem, fun hc => by
              rcases hc with hc1 | hc2
              · exact hxy2 hc1
              · exact hns hc2⟩

theorem nodup_pyDedupe {α : Type} [DecidableEq α] (seen : List α)
    (l : List α) : (pyDedupe seen l).Nodup := by
  induction l generalizing seen with
  | nil => simp [pyDedupe]
  | cons y ys ih =>
    by_cases hy : y ∈ seen
    · rw [pyDedupe, if_pos hy]
      exact ih seen
    · rw [pyDedupe, if_neg hy]
      refine List.nodup_cons.mpr ⟨?_, ih (y :: seen)⟩
      intro hc
      exact ((mem_pyDedupe (y :: seen) ys y).mp hc).2 (List.mem_cons_self y seen)

theorem nodup_one_lt_length_iff {α : Type} (l : List α) (h : l.Nodup) :
    1 < l.length ↔ ∃ a b, a ≠ b ∧ a ∈ l ∧ b ∈ l := by
  constructor
  · intro hlen
    match l, h with
    | x :: y :: t, h =>
      refine ⟨x, y, ?_, List.mem_cons_self x _, List.mem_cons_of_mem x (List.mem_cons_self y t)⟩
      intro hxy
      exact (List.nodup_cons.mp h).1 (hxy ▸ List.mem_cons_self y t)
  · rintro ⟨a, b, hab, ha, hb⟩
    match l with
    | [] => exact absurd ha (List.not_mem_nil a)
    | [z] =>
      rcases List.mem_singleton.mp ha
      rcases List.mem_singleton.mp hb
      exact absurd rfl hab
    | x :: y :: t => simp [Nat.lt_add_one_iff]

theorem name_matches_iff (name : String) (lst : List String) :
    name_matches name lst = true ↔
      (String.mk (beforeFirstDash name.data) ≠ "" ∧
       lst = [String.mk (beforeFirstDash name.data)]) := by
  match lst with
  | [] => simp [name_matches]
  | [x] =>
    constructor
    · intro h
      simp only [name_matches, Bool.and_eq_true, bne_iff_ne, ne_eq] at h
      obtain ⟨⟨hlen, hne⟩, hmemv⟩ := h
      have hx : String.mk (beforeFirstDash name.data) = x := by simpa using hmemv
      exact ⟨hne, by rw [hx]⟩
    · rintro ⟨hne, hl⟩
      have hx : x = String.mk (beforeFirstDash name.data) := by simpa using hl
      subst hx
      simp [name_matches, hne]
  | x :: y :: t => simp [name_matches]

theorem familyMatches_iff (c : Compiler) (d : FamilyDesc) :
    familyMatchesCompiler c d = true ↔ familyClaimsRole d c := by
  simp only [familyMatchesCompiler, Bool.or_eq_true, name_matches_iff,
    familyClaimsRole, normRole]
  tauto

theorem listSetEq_iff (a b : List String) :
    listSetEq a b = true ↔ ∀ x, (x ∈ a ↔ x ∈ b) := by
  simp only [listSetEq, Bool.and_eq_true, List.all_eq_true]
  constructor
  · rintro ⟨hab, hba⟩ x
    constructor
    · intro hx
      simpa using hab x hx
    · intro hx
      simpa using hba x hx
  · intro h
    constructor
    · intro x hx
      simpa using (h x).mp hx
    · intro x hx
      simpa using (h x).mpr hx

/-- Claim C8: `is_mixed_toolchain` returns true exactly when, with
executable basenames stripped of their trailing hyphenated suffix, more
than one compiler family claims at least one role (a family claims a role
only when its recognized name set for the role has exactly one member
equal to the normalized name) and the family set is not one of the fixed
allowed vendor combinations. -/
theorem is_mixed_toolchain_spec (registry : List FamilyDesc) (c : Compiler) :
    is_mixed_toolchain registry c = true ↔ mixedSpecClaim registry c := by
  have hmem : ∀ x,
      (x ∈ pyDedupe []
          ((registry.filter (familyMatchesCompiler c)).map (fun d => d.clsName)))
        ↔ claimsFamily registry c x := by
    intro x
    rw [mem_pyDedupe]
    simp only [List.not_mem_nil, not_false_iff, and_true, List.mem_map,
      List.mem_filter, claimsFamily]
    constructor
    · rintro ⟨d, ⟨hd, hf⟩, hn⟩
      exact ⟨d, hd, hn, (familyMatches_iff c d).mp hf⟩
    · rintro ⟨d, hd, hn, hclaims⟩
      exact ⟨d, ⟨hd, (familyMatches_iff c d).mpr hclaims⟩, hn⟩
  have hnd : (pyDedupe []
      ((registry.filter (familyMatchesCompiler c)).map (fun d => d.clsName))).Nodup :=
    nodup_pyDedupe _ _
  simp only [is_mixed_toolchain]
  by_cases hlen : 1 < (pyDedupe []
      ((registry.filter (familyMatchesCompiler c)).map (fun d => d.clsName))).length
  · rw [if_pos hlen]
    by_cases hallow :
        (listSetEq (pyDedupe []
            ((registry.filter (familyMatchesCompiler c)).map (fun d => d.clsName)))
          allowedCombo1 ||
         listSetEq (pyDedupe []
            ((registry.filter (familyMatchesCompiler c)).map (fun d => d.clsName)))
          allowedCombo2) = true
    · rw [if_pos hallow]
      simp only [Bool.false_eq_true, false_iff]
      rintro ⟨hpair, hnotallowed⟩
      rcases Bool.or_eq_true .. ▸ hallow with h1 | h1
      · exact hnotallowed (Or.inl fun x => ((hmem x).symm.trans ((listSetEq_iff _ _).mp h1 x)))
      · exact hnotallowed (Or.inr fun x => ((hmem x).symm.trans ((listSetEq_iff _ _).mp h1 x)))
    · rw [if_neg (by simpa using hallow)]
      simp only [true_iff]
      constructor
      · obtain ⟨a, b, hab, ha, hb⟩ := (nodup_one_lt_length_iff _ hnd).mp hlen
        exact ⟨a, b, hab, (hmem a).mp ha, (hmem b).mp hb⟩
      · rintro (hall | hall)
        · have : listSetEq (pyDedupe []
              ((registry.filter (familyMatchesCompiler c)).map (fun d => d.clsName)))
              allowedCombo1 = true :=
            (listSetEq_iff _ _).mpr fun x => (hmem x).trans (hall x)
          simp [this] at hallow
        · have : listSetEq (pyDedupe []
              ((registry.filter (familyMatchesCompiler c)).map (fun d => d.clsName)))
              allowedCombo2 = true :=
            (listSetEq_iff _ _).mpr fun x => (hmem x).trans (hall x)
          simp [this] at hallow
  · rw [if_neg hlen]
    simp only [Bool.false_eq_true, false_iff]
    rintro ⟨⟨a, b, hab, ha, hb⟩, hrest⟩
    exact hlen ((nodup_one_lt_length_iff _ hnd).mpr
      ⟨a, b, hab, (hmem a).mpr ha, (hmem b).mpr hb⟩)

theorem any_congr_mem {α : Type} (l : List α) (p q : α → Bool)
    (h : ∀ x ∈ l, p x = q x) : l.any p = l.any q := by
  induction l with
  | nil => rfl
  | cons a t ih =>
    simp only [List.any_cons]
    rw [h a (List.mem_cons_self a t), ih (fun x hx => h x (List.mem_cons_of_mem a hx))]

theorem scope_name_unique (scopes : List Scope)
    (hnd : (scopes.map (fun s => s.name)).Nodup) (s t : Scope)
    (hs : s ∈ scopes) (ht : t ∈ scopes) (h : s.name = t.name) : s = t := by
  induction scopes with
  | nil => exact absurd hs (List.not_mem_nil s)
  | cons a l ih =>
    simp only [List.map_cons, List.nodup_cons] at hnd
    rcases List.mem_cons.mp hs with hs1 | hs2 <;>
      rcases List.mem_cons.mp ht with ht1 | ht2
    · rw [hs1, ht1]
    · exfalso
      apply hnd.1
      rw [List.mem_map]
      exact ⟨t, ht2, (hs1 ▸ h).symm⟩
    · exfalso
      apply hnd.1
      rw [List.mem_map]
      exact ⟨s, hs2, ht1 ▸ h⟩
    · exact ih hnd.2 hs2 ht2

theorem find?_scope_unique (scopes : List Scope)
    (hnd : (scopes.map (fun s => s.name)).Nodup) (s : Scope)
    (hs : s ∈ scopes) :
    scopes.find? (fun t => t.name = s.name) = some s := by
  induction scopes with
  | nil => exact absurd hs (List.not_mem_nil s)
  | cons a l ih =>
    simp only [List.map_cons, List.nodup_cons] at hnd
    rcases List.mem_cons.mp hs with hs1 | hs2
    · subst hs1
      simp [List.find?_cons]
    · have hne : a.name ≠ s.name := by
        intro hc
        apply hnd.1
        rw [List.mem_map]
        exact ⟨s, hs2, hc.symm⟩
      rw [List.find?_cons]
      have hd : (decide (a.name = s.name)) = false := by simp [hne]
      simp only [hd]
      exact ih hnd.2 hs2

theorem get_compiler_config_of_mem (cfg : Config)
    (hnd : (cfg.scopes.map (fun s => s.name)).Nodup) (s : Scope)
    (hs : s ∈ cfg.scopes) :
    get_compiler_config cfg s.name = s.compilers := by
  rw [get_compiler_config, find?_scope_unique cfg.scopes hnd s hs]
  rfl

theorem filter_keep_length_eq {α : Type} (q : α → Bool) (l : List α) :
    ((l.filter fun e => ! q e).length = l.length) ↔ l.any q = false := by
  induction l with
  | nil => simp
  | cons a t ih =>
    simp only [List.any_cons, Bool.or_eq_false_iff]
    by_cases hq : q a
    · rw [List.filter_cons, if_neg (by simp [hq])]
      simp only [List.length_cons]
      constructor
      · intro hlen
        exfalso
        have hle := List.length_filter_le (fun e => ! q e) t
        omega
      · rintro ⟨h1, h2⟩
        exact absurd hq (by simp [h1])
    · rw [List.filter_cons, if_pos (by simp [hq])]
      simp only [List.length_cons, Nat.add_right_cancel_iff, ih]
      constructor
      · intro h
        exact ⟨by simp [hq], h⟩
      · rintro ⟨h1, h2⟩
        exact h2

theorem remove_scope_step (sat : CSpec → CSpec → Bool) (cspec : CSpec)
    (cfg : Config) (w : List String) (n : String)
    (hnd : (cfg.scopes.map (fun s => s.name)).Nodup) :
    _remove_compiler_from_scope sat cfg w cspec n =
      (scopeHasMatch sat cspec cfg n,
       ⟨cfg.scopes.map (fun s => if s.name = n then filterScope sat cspec s else s)⟩,
       if scopeHasMatch sat cspec cfg n then w ++ [n] else w) := by
  by_cases hex : ∃ s0, s0 ∈ cfg.scopes ∧ s0.name = n
  · obtain ⟨s0, hs0, hname⟩ := hex
    have hget : get_compiler_config cfg n = s0.compilers := by
      rw [← hname]
      exact get_compiler_config_of_mem cfg hnd s0 hs0
    have huniq : ∀ s, s ∈ cfg.scopes → s.name = n → s = s0 := by
      intro s hs hsn
      exact scope_name_unique cfg.scopes hnd s s0 hs hs0 (hsn.trans hname.symm)
    cases hm : scopeHasMatch sat cspec cfg n with
    | false =>
      have hall : s0.compilers.any (entryMatchesSpec sat cspec) = false := by
        rw [scopeHasMatch, hget] at hm
        exact hm
      have hlen : ((s0.compilers.filter fun e => ! entryMatchesSpec sat cspec e).length
          = s0.compilers.length) := (filter_keep_length_eq _ _).mpr hall
      rw [_remove_compiler_from_scope, hget, if_pos hlen]
      have hfid : filterScope sat cspec s0 = s0 := by
        have hkeep : s0.compilers.filter (fun e => ! entryMatchesSpec sat cspec e)
            = s0.compilers := by
          rw [List.filter_eq_self]
          intro e he
          have hfalse := List.any_eq_false.mp hall e he
          simp only [Bool.not_eq_true] at hfalse
          simp [hfalse]
        rw [filterScope, hkeep]
      have hmapid : cfg.scopes.map
          (fun s => if s.name = n then filterScope sat cspec s else s) = cfg.scopes := by
        have h1 : cfg.scopes.map
            (fun s => if s.name = n then filterScope sat cspec s else s)
            = cfg.scopes.map id := by
          apply List.map_congr_left
          intro s hs
          by_cases hsn : s.name = n
          · rw [if_pos hsn, huniq s hs hsn, hfid]
            rfl
          · rw [if_neg hsn]
            rfl
        rw [h1, List.map_id]
      rw [hmapid]
      rfl
    | true =>
      have hsome : s0.compilers.any (entryMatchesSpec sat cspec) = true := by
        rw [scopeHasMatch, hget] at hm
        exact hm
      have hlen : ¬ ((s0.compilers.filter fun e => ! entryMatchesSpec sat cspec e).length
          = s0.compilers.length) := by
        rw [filter_keep_length_eq]
        simp [hsome]
      rw [_remove_compiler_from_scope, hget, if_neg hlen]
      have hmap : setCompilerConfig cfg n
          (s0.compilers.filter fun e => ! entryMatchesSpec sat cspec e)
        = ⟨cfg.scopes.map
            (fun s => if s.name = n then filterScope sat cspec s else s)⟩ := by
        rw [setCompilerConfig]
        congr 1
        apply List.map_congr_left
        intro s hs
        by_cases hsn : s.name = n
        · rw [if_pos hsn, if_pos hsn, huniq s hs hsn]
          rfl
        · rw [if_neg hsn, if_neg hsn]
      rw [hmap]
      rfl
  · have hnone : cfg.scopes.find? (fun t => t.name = n) = none := by
      rw [List.find?_eq_none]
      intro s hs
      simp only [decide_eq_true_eq]
      intro hc
      exact hex ⟨s, hs, hc⟩
    have hget : get_compiler_config cfg n = [] := by
      rw [get_compiler_config, hnone]
      rfl
    have hm : scopeHasMatch sat cspec cfg n = false := by
      rw [scopeHasMatch, hget]
      rfl
    have hmapid : cfg.scopes.map
        (fun s => if s.name = n then filterScope sat cspec s else s) = cfg.scopes := by
      have h1 : cfg.scopes.map
          (fun s => if s.name = n then filterScope sat cspec s else s)
          = cfg.scopes.map id := by
        apply List.map_congr_left
        intro s hs
        rw [if_neg (fun hc => hex ⟨s, hs, hc⟩)]
        rfl
      rw [h1, List.map_id]
    rw [_remove_compiler_from_scope, hget, hm, hmapid]
    simp

theorem find?_congr_mem {α : Type} (l : List α) (p q : α → Bool)
    (h : ∀ x ∈ l, p x = q x) : l.find? p = l.find? q := by
  induction l with
  | nil => rfl
  | cons a t ih =>
    rw [List.find?_cons, List.find?_cons, h a (List.mem_cons_self a t),
      ih (fun x hx => h x (List.mem_cons_of_mem a hx))]

theorem any_map_general {α β : Type} (l : List α) (f : α → β) (p : β → Bool) :
    (l.map f).any p = l.any (fun x => p (f x)) := by
  induction l with
  | nil => rfl
  | cons a t ih => simp only [List.map_cons, List.any_cons, ih]

theorem update_preserves_names (sat : CSpec → CSpec → Bool) (cspec : CSpec)
    (cfg : Config) (n : String) :
    (cfg.scopes.map
        (fun s => if s.name = n then filterScope sat cspec s else s)).map
        (fun s => s.name)
      = cfg.scopes.map (fun s => s.name) := by
  rw [List.map_map]
  apply List.map_congr_left
  intro s hs
  simp only [Function.comp]
  by_cases hsn : s.name = n
  · rw [if_pos hsn]
    rfl
  · rw [if_neg hsn]

theorem scopeHasMatch_update (sat : CSpec → CSpec → Bool) (cspec : CSpec)
    (cfg : Config) (n n' : String) (hne : n' ≠ n) :
    scopeHasMatch sat cspec
        ⟨cfg.scopes.map (fun s => if s.name = n then filterScope sat cspec s else s)⟩ n'
      = scopeHasMatch sat cspec cfg n' := by
  have hget : get_compiler_config
      ⟨cfg.scopes.map (fun s => if s.name = n then filterScope sat cspec s else s)⟩ n'
      = get_compiler_config cfg n' := by
    simp only [get_compiler_config, List.find?_map]
    have hpred : cfg.scopes.find?
        ((fun t => decide (t.name = n')) ∘
          (fun s => if s.name = n then filterScope sat cspec s else s))
        = cfg.scopes.find? (fun t => decide (t.name = n')) := by
      apply find?_congr_mem
      intro s hs
      simp only [Function.comp]
      by_cases hsn : s.name = n
      · simp [hsn, filterScope]
      · simp [hsn]
    rw [hpred]
    cases hf : cfg.scopes.find? (fun t => decide (t.name = n')) with
    | none => rfl
    | some s1 =>
      have hs1 : s1.name = n' := by simpa using List.find?_some hf
      have : (if s1.name = n then filterScope sat cspec s1 else s1) = s1 :=
        if_neg (by rw [hs1]; exact hne)
      simp [this]
  rw [scopeHasMatch, scopeHasMatch, hget]

theorem remove_fold (sat : CSpec → CSpec → Bool) (cspec : CSpec)
    (ns : List String) :
    ∀ (cfg : Config) (b0 : Bool) (w0 : List String),
      (cfg.scopes.map (fun s => s.name)).Nodup → ns.Nodup →
      ns.foldl (fun acc s =>
          let r := _remove_compiler_from_scope sat acc.2.1 acc.2.2 cspec s
          (acc.1 || r.1, r.2.1, r.2.2)) (b0, cfg, w0)
        = (b0 || ns.any (fun n => scopeHasMatch sat cspec cfg n),
           ⟨cfg.scopes.map (fun s =>
              if s.name ∈ ns then filterScope sat cspec s else s)⟩,
           w0 ++ ns.filter (fun n => scopeHasMatch sat cspec cfg n)) := by
  induction ns with
  | nil =>
    intro cfg b0 w0 hnd hns
    simp only [List.foldl_nil, List.any_nil, Bool.or_false, List.filter_nil,
      List.append_nil]
    have hmapid : cfg.scopes.map (fun s =>
        if s.name ∈ ([] : List String) then filterScope sat cspec s else s)
        = cfg.scopes := by
      have h1 : cfg.scopes.map (fun s =>
          if s.name ∈ ([] : List String) then filterScope sat cspec s else s)
          = cfg.scopes.map id := by
        apply List.map_congr_left
        intro s hs
        simp
      rw [h1, List.map_id]
    rw [hmapid]
  | cons n rest ih =>
    intro cfg b0 w0 hnd hns
    have hnotin : n ∉ rest := (List.nodup_cons.mp hns).1
    have hrest : rest.Nodup := (List.nodup_cons.mp hns).2
    rw [List.foldl_cons]
    simp only [remove_scope_step sat cspec cfg w0 n hnd]
    have hnd1 : ((Config.mk (cfg.scopes.map (fun s =>
        if s.name = n then filterScope sat cspec s else s))).scopes.map
          (fun s => s.name)).Nodup := by
      simpa [update_preserves_names sat cspec cfg n] using hnd
    rw [ih ⟨cfg.scopes.map (fun s =>
        if s.name = n then filterScope sat cspec s else s)⟩
        (b0 || scopeHasMatch sat cspec cfg n)
        (if scopeHasMatch sat cspec cfg n then w0 ++ [n] else w0) hnd1 hrest]
    have htransfer : ∀ n' ∈ rest,
        scopeHasMatch sat cspec
          ⟨cfg.scopes.map (fun s =>
            if s.name = n then filterScope sat cspec s else s)⟩ n'
        = scopeHasMatch sat cspec cfg n' := by
      intro n' hn'
      exact scopeHasMatch_update sat cspec cfg n n'
        (fun hc => hnotin (hc ▸ hn'))
    refine Prod.ext ?_ (Prod.ext ?_ ?_)
    · dsimp only
      rw [any_congr_mem rest _ _ htransfer, List.any_cons, Bool.or_assoc]
    · dsimp only
      congr 1
      rw [List.map_map]
      apply List.map_congr_left
      intro s hs
      simp only [Function.comp]
      by_cases hsn : s.name = n
      · rw [if_pos hsn]
        have hfn : (filterScope sat cspec s).name = s.name := rfl
        rw [if_neg (by rw [hfn, hsn]; exact hnotin),
          if_pos (by rw [hsn]; exact List.mem_cons_self n rest)]
      · rw [if_neg hsn]
        by_cases hmem : s.name ∈ rest
        · rw [if_pos hmem, if_pos (List.mem_cons_of_mem n hmem)]
        · rw [if_neg hmem, if_neg (by
            intro hc
            rcases List.mem_cons.mp hc with hc1 | hc2
            · exact hsn hc1
            · exact hmem hc2)]
    · dsimp only
      rw [List.filter_congr htransfer, List.filter_cons]
      cases hm : scopeHasMatch sat cspec cfg n with
      | false => simp
      | true => simp

/-- Claim C5 counterexample: the claim says removal with `scope=None` is
attempted across exactly the writable scopes; in a configuration whose
only scope is non-writable but holds a matching entry, the call
nevertheless removes the entry from that scope, rewrites it, and returns
true — `remove_compiler_from_config` iterates `CONFIG.scopes.keys()`, not
the writable scopes. -/
theorem remove_nonwritable_scope_counterexample :
    nonWritableCfg.scopes.all (fun s => ! s.writable) = true
  ∧ remove_compiler_from_config nameSatisfies nonWritableCfg ⟨"gcc", "11.0"⟩ none
      = (true, ⟨[⟨"site", false, [], []⟩]⟩, ["site"]) :=
  ⟨rfl, rfl⟩

/-- Claim C5 (amended): with `scope=None`, removal is attempted across all
scopes of the configuration (not only the writable ones); it returns true
iff at least one entry matching the spec was removed from some scope; the
packages-synthesized entries of every scope are untouched (each scope
keeps its name, writability and `packagesCompilers`, only the `compilers`
list is filtered); and exactly the scopes that stored a matching entry are
rewritten. -/
theorem remove_compiler_from_config_spec (sat : CSpec → CSpec → Bool)
    (cspec : CSpec) (cfg : Config)
    (hnd : (cfg.scopes.map (fun s => s.name)).Nodup) :
    (remove_compiler_from_config sat cfg cspec none).1
        = cfg.scopes.any (fun s => s.compilers.any (entryMatchesSpec sat cspec))
  ∧ (remove_compiler_from_config sat cfg cspec none).2.1.scopes
        = cfg.scopes.map (filterScope sat cspec)
  ∧ (remove_compiler_from_config sat cfg cspec none).2.2
        = (cfg.scopes.filter
            (fun s => s.compilers.any (entryMatchesSpec sat cspec))).map
              (fun s => s.name) := by
  have hmain : remove_compiler_from_config sat cfg cspec none
      = (false || (cfg.scopes.map (fun s => s.name)).any
            (fun n => scopeHasMatch sat cspec cfg n),
         ⟨cfg.scopes.map (fun s =>
            if s.name ∈ cfg.scopes.map (fun t => t.name)
            then filterScope sat cspec s else s)⟩,
         [] ++ (cfg.scopes.map (fun s => s.name)).filter
            (fun n => scopeHasMatch sat cspec cfg n)) := by
    have hfold := remove_fold sat cspec (cfg.scopes.map (fun s => s.name))
      cfg false [] hnd hnd
    simp only [remove_compiler_from_config]
    exact hfold
  have hpointwise : ∀ s ∈ cfg.scopes,
      scopeHasMatch sat cspec cfg s.name
        = s.compilers.any (entryMatchesSpec sat cspec) := by
    intro s hs
    rw [scopeHasMatch, get_compiler_config_of_mem cfg hnd s hs]
  refine ⟨?_, ?_, ?_⟩
  · rw [hmain]
    dsimp only
    rw [Bool.false_or, any_map_general]
    exact any_congr_mem cfg.scopes _ _ hpointwise
  · rw [hmain]
    dsimp only
    apply List.map_congr_left
    intro s hs
    rw [if_pos (List.mem_map.mpr ⟨s, hs, rfl⟩)]
  · rw [hmain]
    dsimp only
    rw [List.nil_append, List.filter_map]
    congr 1
    apply List.filter_congr
    intro s hs
    simp only [Function.comp]
    exact hpointwise s hs

/-- Witness for the amended C5 at a concrete configuration with a
writable matching scope and a non-writable scope carrying only a
packages-synthesized entry: the call reports a removal, filters only the
`compilers` lists, leaves the packages entry in place, and rewrites only
the scope that had a match. -/
theorem remove_compiler_from_config_spec_witness :
    (remove_compiler_from_config nameSatisfies mixedCfg ⟨"gcc", "11.0"⟩ none).1 = true
  ∧ (remove_compiler_from_config nameSatisfies mixedCfg ⟨"gcc", "11.0"⟩ none).2.1.scopes
      = [⟨"user", true, [], []⟩, ⟨"site", false, [], [⟨12, gccEntry "ubuntu"⟩]⟩]
  ∧ (remove_compiler_from_config nameSatisfies mixedCfg ⟨"gcc", "11.0"⟩ none).2.2
      = ["user"] :=
  ⟨((remove_compiler_from_config_spec nameSatisfies ⟨"gcc", "11.0"⟩ mixedCfg
      (by decide)).1).trans (by decide),
   ((remove_compiler_from_config_spec nameSatisfies ⟨"gcc", "11.0"⟩ mixedCfg
      (by decide)).2.1).trans (by decide),
   ((remove_compiler_from_config_spec nameSatisfies ⟨"gcc", "11.0"⟩ mixedCfg
      (by decide)).2.2).trans (by decide)⟩

end SpackCompilers
